import Mathlib

/-!
Verification development for the oiyn-shak SSO service.

The definitions below are a shallow embedding of the Go source:
the JWT codec (`internal/lib/jwt/jwt.go`), the gRPC authorization
interceptor (`internal/app/grpc/app.go`), the credential service
(`internal/services/auth/auth.go`), and the permission service
(`internal/services/user/user.go`).

Cryptography is modelled symbolically: an HMAC-signed token is a record
that carries its claims, its signing-method family, and the secret it was
signed with; verification against a secret succeeds exactly when the
method is HMAC and the secret matches (the standard symbolic model of a
MAC, ignoring collisions).  A bcrypt hash is a record carrying the
password it was derived from; comparison succeeds exactly on equality.
Wall-clock time is passed explicitly as a Unix-seconds integer.
-/

/-- `models.User` from `internal/domain/models/user.go`. -/
structure BcryptHash where
  pw : String
  deriving DecidableEq, Repr

/-- `bcrypt.CompareHashAndPassword`: succeeds iff the hash was derived
from the given password (symbolic one-way function model). -/
def bcryptCompare (h : BcryptHash) (password : String) : Bool :=
  h.pw = password

structure User where
  ID : Int
  Email : String
  PasswordHash : BcryptHash
  Name : String
  Phone : String
  Address : String
  Activated : Bool
  deriving DecidableEq, Repr

/-- `models.App`: tenant with its HMAC signing secret. -/
structure App where
  ID : Int
  Name : String
  Secret : String
  deriving DecidableEq, Repr

/-- `models.Permission` from `internal/domain/models/permission.go`. -/
structure Permission where
  ID : Int
  Code : String
  deriving DecidableEq, Repr

/-- The `alg` family of a JWT signature (`jwt.SigningMethodHS256` vs
anything the HMAC keyfunc rejects). -/
inductive SigningMethod
  | HS256
  | nonHMAC
  deriving DecidableEq, Repr

def SigningMethod.isHMAC : SigningMethod → Bool
  | .HS256 => true
  | .nonHMAC => false

/-- `jwt.TokenClaims` from `internal/lib/jwt/jwt.go`.  `Typ` is the
`type` JSON claim; `RegExpiresAt`/`RegNotBefore` are the embedded
`jwt.RegisteredClaims` fields that the library validates. -/
structure TokenClaims where
  UserID : Int
  Email : String
  Name : String
  Typ : String
  ExpiresAt : Int
  AppID : Int
  Permissions : List String
  Issuer : String
  IssuedAt : Int
  RegExpiresAt : Int
  RegNotBefore : Int
  Subject : String
  JTI : String
  deriving DecidableEq, Repr

/-- A structurally well-formed signed JWT: claims plus the signature data
(symbolic MAC: the token remembers the method and the signing secret). -/
structure SignedToken where
  claims : TokenClaims
  method : SigningMethod
  secret : String
  deriving DecidableEq, Repr

/-- A wire token string: either unparseable garbage or a well-formed
signed token. -/
inductive TokenString
  | malformed
  | signed (t : SignedToken)
  deriving DecidableEq, Repr

/-- `jwt.NewToken`: mints the access token for `user`/`app` with the
permission-code snapshot, signed HS256 with `app.Secret`.
`duration` and `now` are in seconds. -/
def NewToken (user : User) (app : App) (permissions : List Permission)
    (duration now : Int) : SignedToken :=
  { claims :=
      { UserID := user.ID
        Email := user.Email
        Name := user.Name
        Typ := "access"
        ExpiresAt := now + duration
        AppID := app.ID
        Permissions := permissions.map (fun p => p.Code)
        Issuer := "sso-app-" ++ toString app.ID
        IssuedAt := now
        RegExpiresAt := now + duration
        RegNotBefore := now
        Subject := "user-" ++ toString user.ID
        JTI := toString user.ID ++ "-" ++ toString app.ID ++ "-" ++ toString now }
    method := .HS256
    secret := app.Secret }

/-- `jwt.NewRefreshToken`: same signer, `type=refresh`, no permission
snapshot. -/
def NewRefreshToken (user : User) (app : App) (duration now : Int) : SignedToken :=
  { claims :=
      { UserID := user.ID
        Email := user.Email
        Name := user.Name
        Typ := "refresh"
        ExpiresAt := now + duration
        AppID := app.ID
        Permissions := []
        Issuer := "sso-app-" ++ toString app.ID
        IssuedAt := now
        RegExpiresAt := now + duration
        RegNotBefore := now
        Subject := "user-" ++ toString user.ID
        JTI := "refresh-" ++ toString user.ID ++ "-" ++ toString app.ID ++ "-" ++ toString now }
    method := .HS256
    secret := app.Secret }

/-- Failure modes of `jwt.ParseWithClaims` with the HMAC keyfunc,
in the order the library reports them: malformed input, keyfunc
rejection (non-HMAC `alg`), bad signature, then claims validation
(expiry before not-before). -/
inductive ParseError
  | malformedTok
  | keyfuncErr
  | signatureInvalid
  | expired
  | notYetValid
  deriving DecidableEq, Repr

/-- `jwt.ParseWithClaims` with the HMAC-pinning keyfunc used by
`ValidateToken`/`ValidateTokenBase`: parse, reject non-HMAC `alg`,
verify the signature against `secret`, then validate the registered
claims (`exp`, `nbf`) at time `now`. -/
def parseWithClaims (ts : TokenString) (secret : String) (now : Int) :
    Except ParseError TokenClaims :=
  match ts with
  | .malformed => .error .malformedTok
  | .signed t =>
    if ¬ t.method.isHMAC then .error .keyfuncErr
    else if t.secret ≠ secret then .error .signatureInvalid
    else if t.claims.RegExpiresAt ≤ now then .error .expired
    else if now < t.claims.RegNotBefore then .error .notYetValid
    else .ok t.claims

/-- The sentinel errors of `internal/lib/jwt/jwt.go`. -/
inductive JwtError
  | ErrTokenInvalid
  | ErrTokenExpired
  | ErrClaimsInvalid
  | ErrNotRefreshToken
  | ErrNotAccessToken
  | ErrTokenMalformed
  | ErrInvalidIssuer
  deriving DecidableEq, Repr

/-- `jwt.ValidateToken`: parse+verify, map `jwt.ErrTokenExpired` to
`ErrTokenExpired` and every other parse failure to `ErrTokenInvalid`,
then require `type == "access"` (else `ErrNotAccessToken`). -/
def ValidateToken (ts : TokenString) (secret : String) (now : Int) :
    Except JwtError TokenClaims :=
  match parseWithClaims ts secret now with
  | .error .expired => .error .ErrTokenExpired
  | .error _ => .error .ErrTokenInvalid
  | .ok claims =>
    if claims.Typ ≠ "access" then .error .ErrNotAccessToken
    else .ok claims

/-- `jwt.ValidateTokenBase`: parse+verify with the same error mapping,
no type requirement. -/
def ValidateTokenBase (ts : TokenString) (secret : String) (now : Int) :
    Except JwtError TokenClaims :=
  match parseWithClaims ts secret now with
  | .error .expired => .error .ErrTokenExpired
  | .error _ => .error .ErrTokenInvalid
  | .ok claims => .ok claims

/-- `jwt.ValidateRefreshToken`: base validation, then require
`type == "refresh"` (else `ErrNotRefreshToken`). -/
def ValidateRefreshToken (ts : TokenString) (secret : String) (now : Int) :
    Except JwtError TokenClaims :=
  match ValidateTokenBase ts secret now with
  | .error e => .error e
  | .ok claims =>
    if claims.Typ ≠ "refresh" then .error .ErrNotRefreshToken
    else .ok claims

/-- `jwt.DecodeWithoutValidation`: parse the claims without checking the
signature or validating expiry; only unparseable input fails
(`ErrTokenMalformed`). -/
def DecodeWithoutValidation (ts : TokenString) : Except JwtError TokenClaims :=
  match ts with
  | .malformed => .error .ErrTokenMalformed
  | .signed t => .ok t.claims

/-- `(*TokenClaims).HasPermission`: linear scan of the embedded
permission snapshot. -/
def TokenClaims.HasPermission (c : TokenClaims) (permissionCode : String) : Bool :=
  c.Permissions.any (fun p => p = permissionCode)

/-- A well-formed HMAC token verified against its own secret while
unexpired and past its not-before parses to its claims. -/
theorem parseWithClaims_ok (t : SignedToken) (now : Int)
    (hm : t.method.isHMAC = true)
    (hexp : ¬ t.claims.RegExpiresAt ≤ now)
    (hnbf : ¬ now < t.claims.RegNotBefore) :
    parseWithClaims (.signed t) t.secret now = .ok t.claims := by
  simp [parseWithClaims, hm, hexp, hnbf]

/-- A well-formed HMAC token verified against its own secret at or after
its expiry parses to the expired error. -/
theorem parseWithClaims_expired (t : SignedToken) (now : Int)
    (hm : t.method.isHMAC = true)
    (hexp : t.claims.RegExpiresAt ≤ now) :
    parseWithClaims (.signed t) t.secret now = .error .expired := by
  simp [parseWithClaims, hm, hexp]

/-- C4: for a well-formed, correctly signed, unexpired token, validating
as access when the type claim is not "access" fails with the distinct
error `ErrNotAccessToken`, and validating as refresh when the type claim
is not "refresh" fails with the distinct error `ErrNotRefreshToken`;
neither returns the generic `ErrTokenInvalid`. -/
theorem type_confusion_distinct_errors (t : SignedToken) (now : Int)
    (hm : t.method = .HS256)
    (hexp : now < t.claims.RegExpiresAt)
    (hnbf : t.claims.RegNotBefore ≤ now) :
    (t.claims.Typ ≠ "access" →
      ValidateToken (.signed t) t.secret now = .error .ErrNotAccessToken) ∧
    (t.claims.Typ ≠ "refresh" →
      ValidateRefreshToken (.signed t) t.secret now = .error .ErrNotRefreshToken) := by
  have hparse : parseWithClaims (.signed t) t.secret now = .ok t.claims :=
    parseWithClaims_ok t now (by simp [hm, SigningMethod.isHMAC])
      (by omega) (by omega)
  constructor
  · intro hty
    simp only [ValidateToken, hparse]
    simp [hty]
  · intro hty
    simp only [ValidateRefreshToken, ValidateTokenBase, hparse]
    simp [hty]

/-- Closed witness for `type_confusion_distinct_errors` at a concrete
refresh-typed token validated at time 5. -/
theorem type_confusion_distinct_errors_witness :
    ValidateToken
      (.signed
        { claims :=
            { UserID := 7, Email := "u@example.com", Name := "U",
              Typ := "refresh", ExpiresAt := 100, AppID := 1,
              Permissions := [], Issuer := "sso-app-1", IssuedAt := 0,
              RegExpiresAt := 100, RegNotBefore := 0,
              Subject := "user-7", JTI := "refresh-7-1-0" }
          method := .HS256, secret := "s1" })
      "s1" 5 = .error .ErrNotAccessToken :=
  (type_confusion_distinct_errors
    { claims :=
        { UserID := 7, Email := "u@example.com", Name := "U",
          Typ := "refresh", ExpiresAt := 100, AppID := 1,
          Permissions := [], Issuer := "sso-app-1", IssuedAt := 0,
          RegExpiresAt := 100, RegNotBefore := 0,
          Subject := "user-7", JTI := "refresh-7-1-0" }
      method := .HS256, secret := "s1" }
    5 (by decide) (by decide) (by decide)).1 (by decide)

/-- C5: minting an access token and validating it against the same app's
secret (with a positive ttl, at the minting instant) succeeds and
returns claims whose user id, email, app id, and permission-code list
equal the minting inputs, with type "access". -/
theorem mint_validate_roundtrip (user : User) (app : App)
    (permissions : List Permission) (ttl now : Int) (h : 0 < ttl) :
    ValidateToken (.signed (NewToken user app permissions ttl now)) app.Secret now
      = .ok (NewToken user app permissions ttl now).claims ∧
    (NewToken user app permissions ttl now).claims.UserID = user.ID ∧
    (NewToken user app permissions ttl now).claims.Email = user.Email ∧
    (NewToken user app permissions ttl now).claims.AppID = app.ID ∧
    (NewToken user app permissions ttl now).claims.Permissions
      = permissions.map (fun p => p.Code) ∧
    (NewToken user app permissions ttl now).claims.Typ = "access" := by
  refine ⟨?_, rfl, rfl, rfl, rfl, rfl⟩
  have hparse : parseWithClaims (.signed (NewToken user app permissions ttl now))
      app.Secret now = .ok (NewToken user app permissions ttl now).claims :=
    parseWithClaims_ok (NewToken user app permissions ttl now) now
      (by simp [NewToken, SigningMethod.isHMAC])
      (by simp only [NewToken]; omega)
      (by simp only [NewToken]; omega)
  simp only [ValidateToken, hparse]
  simp [NewToken]

/-- Closed witness for `mint_validate_roundtrip` at concrete inputs. -/
theorem mint_validate_roundtrip_witness :
    ValidateToken
      (.signed (NewToken
        { ID := 7, Email := "u@example.com", PasswordHash := { pw := "pw123456" },
          Name := "U", Phone := "1", Address := "A", Activated := true }
        { ID := 1, Name := "sso", Secret := "s1" }
        [{ ID := 1, Code := "user" }, { ID := 2, Code := "admin" }]
        900 1000))
      "s1" 1000
      = .ok (NewToken
        { ID := 7, Email := "u@example.com", PasswordHash := { pw := "pw123456" },
          Name := "U", Phone := "1", Address := "A", Activated := true }
        { ID := 1, Name := "sso", Secret := "s1" }
        [{ ID := 1, Code := "user" }, { ID := 2, Code := "admin" }]
        900 1000).claims :=
  (mint_validate_roundtrip
    { ID := 7, Email := "u@example.com", PasswordHash := { pw := "pw123456" },
      Name := "U", Phone := "1", Address := "A", Activated := true }
    { ID := 1, Name := "sso", Secret := "s1" }
    [{ ID := 1, Code := "user" }, { ID := 2, Code := "admin" }]
    900 1000 (by decide)).1

/-- C6: a token minted with a negative ttl and validated against the
correct secret fails with the time-based `ErrTokenExpired`, never
`ErrTokenInvalid`. -/
theorem negative_ttl_expired (user : User) (app : App)
    (permissions : List Permission) (ttl now : Int) (h : ttl < 0) :
    ValidateToken (.signed (NewToken user app permissions ttl now)) app.Secret now
      = .error .ErrTokenExpired ∧
    ValidateToken (.signed (NewToken user app permissions ttl now)) app.Secret now
      ≠ .error .ErrTokenInvalid := by
  have hparse : parseWithClaims (.signed (NewToken user app permissions ttl now))
      app.Secret now = .error .expired :=
    parseWithClaims_expired (NewToken user app permissions ttl now) now
      (by simp [NewToken, SigningMethod.isHMAC])
      (by simp only [NewToken]; omega)
  constructor
  · simp only [ValidateToken, hparse]
  · simp only [ValidateToken, hparse]
    simp

/-- Closed witness for `negative_ttl_expired` at concrete inputs. -/
theorem negative_ttl_expired_witness :
    ValidateToken
      (.signed (NewToken
        { ID := 7, Email := "u@example.com", PasswordHash := { pw := "pw123456" },
          Name := "U", Phone := "1", Address := "A", Activated := true }
        { ID := 1, Name := "sso", Secret := "s1" }
        [] (-60) 1000))
      "s1" 1000 = .error .ErrTokenExpired :=
  (negative_ttl_expired
    { ID := 7, Email := "u@example.com", PasswordHash := { pw := "pw123456" },
      Name := "U", Phone := "1", Address := "A", Activated := true }
    { ID := 1, Name := "sso", Secret := "s1" }
    [] (-60) 1000 (by decide)).1

/-! ## Authorization interceptor (`internal/app/grpc/app.go`) -/

/-- gRPC status codes used by the interceptor. -/
inductive GrpcCode
  | Unauthenticated
  | PermissionDenied
  | Internal
  deriving DecidableEq, Repr

/-- `MethodPermissions` policy entry. -/
structure MethodPermissions where
  Required : List String
  OneOf : List String
  RequireAuth : Bool
  deriving DecidableEq, Repr

/-- The static `methodPermissions` policy table. -/
def methodPermissions (method : String) : Option MethodPermissions :=
  if method = "/sso.Auth/GetUserInfo" then
    some { Required := [], OneOf := [], RequireAuth := true }
  else if method = "/sso.Permission/GetUserPermissions" then
    some { Required := [], OneOf := ["admin", "staff"], RequireAuth := false }
  else if method = "/sso.Auth/Logout" then
    some { Required := [], OneOf := [], RequireAuth := true }
  else none

/-- Go's `%s` rendering of a string slice, used in the one-of
PermissionDenied message. -/
def goFormatList (xs : List String) : String :=
  "[" ++ String.intercalate " " xs ++ "]"

/-- Result of `checkPermissions` (a `nil` error, or a gRPC status
error). -/
inductive CheckResult
  | ok
  | internalErr (msg : String)
  | permissionDenied (msg : String)
  deriving DecidableEq, Repr

/-- The `Required` loop of `checkPermissions`: each code is looked up in
the token snapshot first; only when absent there is the live
`HasUserPermission` lookup (`db`) consulted — a db error aborts with
Internal, a negative answer aborts with PermissionDenied naming the
code. -/
def requiredLoop (claims : TokenClaims) (db : String → Except Unit Bool) :
    List String → CheckResult
  | [] => .ok
  | c :: rest =>
    if claims.HasPermission c then requiredLoop claims db rest
    else
      match db c with
      | .error _ => .internalErr "failed to check user permissions"
      | .ok allowed =>
        if ¬ allowed then
          .permissionDenied ("missing required permission: " ++ c)
        else requiredLoop claims db rest

/-- The db scan of the `OneOf` branch: stops at the first grant, aborts
on a db error. -/
def oneOfDbLoop (db : String → Except Unit Bool) : List String → Except Unit Bool
  | [] => .ok false
  | c :: rest =>
    match db c with
    | .error _ => .error ()
    | .ok true => .ok true
    | .ok false => oneOfDbLoop db rest

/-- `checkPermissions` from `internal/app/grpc/app.go`: pure-auth early
return, then the `Required` loop, then the `OneOf` snapshot scan with db
fallback. -/
def checkPermissions (permConfig : MethodPermissions) (claims : TokenClaims)
    (db : String → Except Unit Bool) : CheckResult :=
  if permConfig.RequireAuth = true ∧ permConfig.Required = [] ∧ permConfig.OneOf = [] then
    .ok
  else
    match requiredLoop claims db permConfig.Required with
    | .ok =>
      if permConfig.OneOf = [] then .ok
      else
        if permConfig.OneOf.any (fun p => claims.HasPermission p) then .ok
        else
          match oneOfDbLoop db permConfig.OneOf with
          | .error _ => .internalErr "failed to check user permissions"
          | .ok true => .ok
          | .ok false =>
            .permissionDenied
              ("missing one of required permissions: " ++ goFormatList permConfig.OneOf)
    | r => r

/-- `strings.HasPrefix`, modelled on the character lists of the two
strings. -/
def goHasPrefix (s p : String) : Bool :=
  p.data.isPrefixOf s.data

/-- `strings.TrimPrefix(s, "Bearer ")`: drop the 7-character prefix when
present, otherwise return the string unchanged. -/
def trimBearer (s : String) : String :=
  if goHasPrefix s "Bearer " then String.mk (s.data.drop 7) else s

/-- `extractTokenFromMetadata`: `md = none` models a call without
incoming metadata; `some vs` models the values of the `authorization`
key (empty when the header is absent). -/
def extractTokenFromMetadata (md : Option (List String)) :
    Except (GrpcCode × String) String :=
  match md with
  | none => .error (.Unauthenticated, "missing metadata")
  | some authHeader =>
    match authHeader with
    | [] => .error (.Unauthenticated, "missing authorization header")
    | v :: _ =>
      let token := trimBearer v
      if token = v then .error (.Unauthenticated, "invalid authorization header format")
      else .ok token

/-- The collaborators the interceptor consults: the wire decoding of the
string after the bearer prefix, the per-tenant secret lookup, and the
live permission lookup. -/
structure InterceptEnv where
  parseWire : String → TokenString
  getAppSecret : Int → Except Unit String
  hasUserPermission : Int → String → Except Unit Bool

/-- `validateTokenWithDynamicSecret`: decode unverified, resolve the
claimed app's secret, then validate as access type; any step's failure
propagates. -/
def validateTokenWithDynamicSecret (env : InterceptEnv) (token : TokenString)
    (now : Int) : Except Unit TokenClaims :=
  match DecodeWithoutValidation token with
  | .error _ => .error ()
  | .ok claims =>
    match env.getAppSecret claims.AppID with
    | .error _ => .error ()
    | .ok secret =>
      match ValidateToken token secret now with
      | .error _ => .error ()
      | .ok validClaims => .ok validClaims

/-- Outcome of `InterceptorPermission`: the handler runs (with the
attached claims when the method is policed), or the call is rejected
with a status. -/
inductive InterceptOutcome
  | handler (claims : Option TokenClaims)
  | reject (code : GrpcCode) (msg : String)
  deriving DecidableEq, Repr

/-- `InterceptorPermission`: methods absent from the policy table pass
straight through; otherwise extract the bearer token, validate it with
the dynamically resolved secret, run `checkPermissions`, and invoke the
handler with the claims attached. -/
def InterceptorPermission (env : InterceptEnv) (method : String)
    (md : Option (List String)) (now : Int) : InterceptOutcome :=
  match methodPermissions method with
  | none => .handler none
  | some permConfig =>
    match extractTokenFromMetadata md with
    | .error _ => .reject .Unauthenticated "missing token"
    | .ok tokenStr =>
      match validateTokenWithDynamicSecret env (env.parseWire tokenStr) now with
      | .error _ => .reject .Unauthenticated "invalid token"
      | .ok claims =>
        match checkPermissions permConfig claims
            (env.hasUserPermission claims.UserID) with
        | .ok => .handler (some claims)
        | .internalErr m => .reject .Internal m
        | .permissionDenied m => .reject .PermissionDenied m

/-- An interceptor environment whose every collaborator fails; used to
exhibit that early rejections consult no collaborator. -/
def envNoop : InterceptEnv :=
  { parseWire := fun _ => .malformed
    getAppSecret := fun _ => .error ()
    hasUserPermission := fun _ _ => .error () }

/-- C10: for a method present in the policy table, an authorization
header whose first value does not begin with "Bearer " is rejected with
Unauthenticated, for every environment alike — so no token decoding and
no secret lookup can influence the outcome. -/
theorem bearer_prefix_rejected_before_decode (env : InterceptEnv)
    (method : String) (permConfig : MethodPermissions) (v : String)
    (vs : List String) (now : Int)
    (hpol : methodPermissions method = some permConfig)
    (hv : goHasPrefix v "Bearer " = false) :
    InterceptorPermission env method (some (v :: vs)) now
      = .reject .Unauthenticated "missing token" := by
  have hext : extractTokenFromMetadata (some (v :: vs))
      = .error (.Unauthenticated, "invalid authorization header format") := by
    simp [extractTokenFromMetadata, trimBearer, hv]
  simp [InterceptorPermission, hpol, hext]

/-- Closed witness for `bearer_prefix_rejected_before_decode`: the
protected Logout method with a non-Bearer header value. -/
theorem bearer_prefix_rejected_before_decode_witness :
    InterceptorPermission envNoop "/sso.Auth/Logout" (some ["Basic dXNlcg=="]) 0
      = .reject .Unauthenticated "missing token" :=
  bearer_prefix_rejected_before_decode envNoop "/sso.Auth/Logout"
    { Required := [], OneOf := [], RequireAuth := true }
    "Basic dXNlcg==" [] 0 (by decide) (by decide)

/-- The required loop passes exactly when every required code is either
in the token snapshot or granted live in the database. -/
theorem requiredLoop_ok_iff (claims : TokenClaims)
    (db : String → Except Unit Bool) (req : List String) :
    requiredLoop claims db req = .ok ↔
      ∀ c ∈ req, claims.HasPermission c = true ∨ db c = .ok true := by
  induction req with
  | nil => simp [requiredLoop]
  | cons c rest ih =>
    simp only [requiredLoop]
    by_cases hc : claims.HasPermission c
    · rw [if_pos hc, ih]
      constructor
      · intro hall x hx
        rcases List.mem_cons.mp hx with h | h
        · exact Or.inl (h ▸ hc)
        · exact hall x h
      · intro hall x hx
        exact hall x (List.mem_cons_of_mem c hx)
    · rw [if_neg hc]
      cases hdb : db c with
      | error e =>
        constructor
        · intro h; cases h
        · intro hall
          rcases hall c (List.mem_cons_self c rest) with h | h
          · exact absurd h hc
          · rw [hdb] at h; cases h
      | ok allowed =>
        cases allowed with
        | false =>
          simp only [Bool.not_false, if_pos trivial]
          constructor
          · intro h; cases h
          · intro hall
            rcases hall c (List.mem_cons_self c rest) with h | h
            · exact absurd h hc
            · rw [hdb] at h; cases h
        | true =>
          simp only [Bool.not_true]
          rw [if_neg (by simp), ih]
          constructor
          · intro hall x hx
            rcases List.mem_cons.mp hx with h | h
            · exact Or.inr (h ▸ hdb)
            · exact hall x h
          · intro hall x hx
            exact hall x (List.mem_cons_of_mem c hx)

/-- A PermissionDenied outcome of the required loop always names a
required code that is absent from the snapshot and denied by the
database fallback. -/
theorem requiredLoop_denied_spec (claims : TokenClaims)
    (db : String → Except Unit Bool) (req : List String) (msg : String) :
    requiredLoop claims db req = .permissionDenied msg →
      ∃ c ∈ req, msg = "missing required permission: " ++ c ∧
        claims.HasPermission c = false ∧ db c = .ok false := by
  induction req with
  | nil => intro h; cases h
  | cons c rest ih =>
    intro h
    simp only [requiredLoop] at h
    by_cases hc : claims.HasPermission c
    · rw [if_pos hc] at h
      obtain ⟨x, hx, hrest⟩ := ih h
      exact ⟨x, List.mem_cons_of_mem c hx, hrest⟩
    · rw [if_neg hc] at h
      cases hdb : db c with
      | error e => rw [hdb] at h; cases h
      | ok allowed =>
        rw [hdb] at h
        cases allowed with
        | false =>
          have h2 : CheckResult.permissionDenied ("missing required permission: " ++ c)
              = CheckResult.permissionDenied msg := h
          exact ⟨c, List.mem_cons_self c rest,
            (CheckResult.permissionDenied.inj h2).symm, by simpa using hc, hdb⟩
        | true =>
          obtain ⟨x, hx, hrest⟩ := ih h
          exact ⟨x, List.mem_cons_of_mem c hx, hrest⟩

/-- An Internal outcome of the required loop carries the fixed message
and stems from a database failure on a code absent from the snapshot. -/
theorem requiredLoop_internal_spec (claims : TokenClaims)
    (db : String → Except Unit Bool) (req : List String) (msg : String) :
    requiredLoop claims db req = .internalErr msg →
      msg = "failed to check user permissions" ∧
      ∃ c ∈ req, claims.HasPermission c = false ∧ db c = .error () := by
  induction req with
  | nil => intro h; cases h
  | cons c rest ih =>
    intro h
    simp only [requiredLoop] at h
    by_cases hc : claims.HasPermission c
    · rw [if_pos hc] at h
      obtain ⟨hmsg, x, hx, hrest⟩ := ih h
      exact ⟨hmsg, x, List.mem_cons_of_mem c hx, hrest⟩
    · rw [if_neg hc] at h
      cases hdb : db c with
      | error e =>
        rw [hdb] at h
        simp only [CheckResult.internalErr.injEq] at h
        exact ⟨h.symm, c, List.mem_cons_self c rest,
          by simpa using hc, hdb⟩
      | ok allowed =>
        rw [hdb] at h
        cases allowed with
        | false =>
          have h2 : CheckResult.permissionDenied ("missing required permission: " ++ c)
              = CheckResult.internalErr msg := h
          cases h2
        | true =>
          obtain ⟨hmsg, x, hx, hrest⟩ := ih h
          exact ⟨hmsg, x, List.mem_cons_of_mem c hx, hrest⟩

/-- Snapshot first: the database is only consulted on codes absent from
the token snapshot, so two databases that agree off-snapshot yield the
same required-loop outcome. -/
theorem requiredLoop_db_agree (claims : TokenClaims)
    (db db' : String → Except Unit Bool) (req : List String)
    (hagree : ∀ c ∈ req, claims.HasPermission c = false → db c = db' c) :
    requiredLoop claims db req = requiredLoop claims db' req := by
  induction req with
  | nil => rfl
  | cons c rest ih =>
    simp only [requiredLoop]
    by_cases hc : claims.HasPermission c
    · rw [if_pos hc, if_pos hc]
      exact ih (fun x hx => hagree x (List.mem_cons_of_mem c hx))
    · have hdbc := hagree c (List.mem_cons_self c rest) (by simpa using hc)
      rw [if_neg hc, if_neg hc, ← hdbc]
      cases db c with
      | error e => rfl
      | ok allowed =>
        cases allowed with
        | false => rfl
        | true =>
          exact ih (fun x hx => hagree x (List.mem_cons_of_mem c hx))

/-- With a non-empty Required list, a failed required loop is the
outcome of `checkPermissions` itself. -/
theorem checkPermissions_required_propagate (permConfig : MethodPermissions)
    (claims : TokenClaims) (db : String → Except Unit Bool)
    (hreq : permConfig.Required ≠ [])
    (hfail : requiredLoop claims db permConfig.Required ≠ .ok) :
    checkPermissions permConfig claims db
      = requiredLoop claims db permConfig.Required := by
  simp only [checkPermissions]
  rw [if_neg (by simp [hreq])]

/-- A concrete empty-snapshot claims value used by witnesses. -/
def claimsNoPerms : TokenClaims :=
  { UserID := 7, Email := "u@example.com", Name := "U", Typ := "access",
    ExpiresAt := 100, AppID := 1, Permissions := [], Issuer := "sso-app-1",
    IssuedAt := 0, RegExpiresAt := 100, RegNotBefore := 0,
    Subject := "user-7", JTI := "7-1-0" }

/-- C3: with a non-empty Required list, each required code is checked
against the token snapshot first and only on absence against the live
lookup `db`; the required phase passes iff every code is in the snapshot
or granted live; a PermissionDenied failure propagates to
`checkPermissions` and names a code missing after both checks; a
database failure propagates as Internal; and the outcome ignores the
database on codes present in the snapshot. -/
theorem required_two_tier_check (permConfig : MethodPermissions)
    (claims : TokenClaims) (db db' : String → Except Unit Bool)
    (hreq : permConfig.Required ≠ []) :
    (requiredLoop claims db permConfig.Required = .ok ↔
       ∀ c ∈ permConfig.Required,
         claims.HasPermission c = true ∨ db c = .ok true) ∧
    (∀ msg, requiredLoop claims db permConfig.Required = .permissionDenied msg →
       checkPermissions permConfig claims db = .permissionDenied msg ∧
       ∃ c ∈ permConfig.Required, msg = "missing required permission: " ++ c ∧
         claims.HasPermission c = false ∧ db c = .ok false) ∧
    (∀ msg, requiredLoop claims db permConfig.Required = .internalErr msg →
       checkPermissions permConfig claims db = .internalErr msg ∧
       msg = "failed to check user permissions" ∧
       ∃ c ∈ permConfig.Required,
         claims.HasPermission c = false ∧ db c = .error ()) ∧
    ((∀ c ∈ permConfig.Required, claims.HasPermission c = false → db c = db' c) →
       requiredLoop claims db permConfig.Required
         = requiredLoop claims db' permConfig.Required) := by
  refine ⟨requiredLoop_ok_iff claims db permConfig.Required, ?_, ?_,
    fun hagree => requiredLoop_db_agree claims db db' permConfig.Required hagree⟩
  · intro msg h
    refine ⟨?_, requiredLoop_denied_spec claims db permConfig.Required msg h⟩
    rw [checkPermissions_required_propagate permConfig claims db hreq
      (by rw [h]; simp), h]
  · intro msg h
    refine ⟨?_, requiredLoop_internal_spec claims db permConfig.Required msg h⟩
    rw [checkPermissions_required_propagate permConfig claims db hreq
      (by rw [h]; simp), h]

/-- Closed witness for `required_two_tier_check`: a caller holding no
permission at all is denied a Required-guarded method with the message
naming the missing code. -/
theorem required_two_tier_check_witness :
    checkPermissions { Required := ["admin"], OneOf := [], RequireAuth := false }
      claimsNoPerms (fun _ => Except.ok false)
      = .permissionDenied "missing required permission: admin" :=
  ((required_two_tier_check
    { Required := ["admin"], OneOf := [], RequireAuth := false }
    claimsNoPerms (fun _ => Except.ok false) (fun _ => Except.ok false)
    (by decide)).2.1
    "missing required permission: admin" (by decide)).1

/-! ## Credential service (`internal/services/auth/auth.go`) -/

/-- Outcome of a storage lookup, keeping the not-found sentinel
(`storage.ErrUserNotFound`) distinguishable from other database
failures. -/
inductive Lookup (α : Type)
  | found (a : α)
  | notFound
  | dbError (msg : String)
  deriving DecidableEq, Repr

/-- Errors surfaced by the credential service: the opaque
`ErrInvalidCredentials` sentinel, wrapped storage errors, wrapped JWT
codec errors, and ad hoc operation errors. -/
inductive SvcError
  | invalidCredentials
  | storageErr (msg : String)
  | jwtErr (e : JwtError)
  | opErr (msg : String)
  deriving DecidableEq, Repr

/-- The collaborators of the `Auth` service.  Persisted refresh tokens
are threaded separately as a `List TokenString` store; boolean flags
model whether the corresponding storage or mailer call fails. -/
structure AuthEnv where
  usersByEmail : String → Lookup User
  usersByID : Int → Lookup User
  apps : Int → Except String App
  permsOf : Int → Except String (List Permission)
  saveRefreshFails : Bool
  deleteRefreshFails : Bool
  existsRefreshFails : Bool
  saveResetFails : Bool
  sendResetEmailFails : Bool

/-- `Auth.Login`: fetch the user by email (not-found collapses to
`invalidCredentials`, any other lookup failure propagates), verify the
bcrypt hash (mismatch is the same `invalidCredentials`), resolve the
app, snapshot current permissions, mint the access/refresh pair,
persist the refresh record and re-check its existence before
returning. -/
def Login (env : AuthEnv) (store : List TokenString) (email password : String)
    (appID tokenTTL refreshTTL now : Int) :
    Except SvcError (TokenString × TokenString × Int) × List TokenString :=
  match env.usersByEmail email with
  | .notFound => (.error .invalidCredentials, store)
  | .dbError m => (.error (.storageErr m), store)
  | .found user =>
    if bcryptCompare user.PasswordHash password = false then
      (.error .invalidCredentials, store)
    else
      match env.apps appID with
      | .error m => (.error (.storageErr m), store)
      | .ok app =>
        match env.permsOf user.ID with
        | .error m => (.error (.storageErr m), store)
        | .ok permissions =>
          let token := TokenString.signed (NewToken user app permissions tokenTTL now)
          let refresh := TokenString.signed (NewRefreshToken user app refreshTTL now)
          let expiresAt := now + tokenTTL
          if env.saveRefreshFails then (.error (.storageErr "save refresh"), store)
          else
            let store1 := store ++ [refresh]
            if env.existsRefreshFails ∨ store1.contains refresh = false then
              (.error (.opErr "invalid refresh token"), store1)
            else (.ok (token, refresh, expiresAt), store1)

/-- Outcome of `Auth.RefreshToken`.  `nilPanic` is the run-time nil
pointer dereference of `validClaims.UserID`: when
`jwt.ValidateRefreshToken` fails, the Go code logs the error but has no
`return` statement, and `validClaims` is nil on that path. -/
inductive RefreshOutcome
  | ok (access refresh : TokenString) (expiresAt : Int)
  | err (e : SvcError)
  | nilPanic
  deriving DecidableEq, Repr

/-- `Auth.RefreshToken`: decode unverified, resolve the claimed app,
verify as refresh type, reload the user and a fresh permission
snapshot, mint a new pair, delete the old record (failure logged, not
fatal) and persist the new one.  The verification-failure branch
mirrors the source's missing `return`: it falls through to the nil
dereference. -/
def RefreshToken (env : AuthEnv) (store : List TokenString)
    (refresh : TokenString) (tokenTTL refreshTTL now : Int) :
    RefreshOutcome × List TokenString :=
  match DecodeWithoutValidation refresh with
  | .error e => (.err (.jwtErr e), store)
  | .ok claims =>
    match env.apps claims.AppID with
    | .error m => (.err (.storageErr m), store)
    | .ok app =>
      match ValidateRefreshToken refresh app.Secret now with
      | .error _ => (.nilPanic, store)
      | .ok validClaims =>
        match env.usersByID validClaims.UserID with
        | .notFound => (.err (.storageErr "user not found"), store)
        | .dbError m => (.err (.storageErr m), store)
        | .found user =>
          match env.permsOf user.ID with
          | .error m => (.err (.storageErr m), store)
          | .ok permissions =>
            let newToken := TokenString.signed (NewToken user app permissions tokenTTL now)
            let newRefresh := TokenString.signed (NewRefreshToken user app refreshTTL now)
            let expiresAt := now + tokenTTL
            let store1 :=
              if env.deleteRefreshFails then store
              else store.filter (fun t => t != refresh)
            if env.saveRefreshFails then (.err (.storageErr "save refresh"), store1)
            else (.ok newToken newRefresh expiresAt, store1 ++ [newRefresh])

/-- `Auth.ForgotPassword`: look up the user by email; on not-found
return a generic success response; otherwise mint a 1h reset token,
persist it and delegate delivery (the random token value goes only to
storage and the mailer, both abstracted by the failure flags — the
returned triple never contains it). -/
def ForgotPassword (env : AuthEnv) (email : String) (appID now : Int) :
    Bool × String × Int × Option SvcError :=
  match env.usersByEmail email with
  | .notFound =>
    (true, "If this email is registered, you will receive a reset link", 0, none)
  | .dbError m => (false, "Failed to process request", 0, some (.storageErr m))
  | .found _user =>
    let expiresAt := now + 3600
    if env.saveResetFails then
      (false, "Failed to save reset token", 0, some (.storageErr "save reset token"))
    else if env.sendResetEmailFails then
      (false, "Failed to send reset email", 0, some (.storageErr "send reset email"))
    else (true, "Password reset email sent successfully", expiresAt, none)

deriving instance DecidableEq for Except

/-- A concrete user fixture. -/
def userAlice : User :=
  { ID := 7, Email := "alice@example.com", PasswordHash := { pw := "hunter2xx" },
    Name := "Alice", Phone := "1", Address := "A", Activated := true }

/-- A concrete app fixture. -/
def appSso : App := { ID := 1, Name := "sso", Secret := "s1" }

/-- Environment where user 7 / app 1 exist, the email index knows only
`alice@example.com`, and no collaborator fails. -/
def envHealthy : AuthEnv :=
  { usersByEmail := fun e => if e = "alice@example.com" then .found userAlice else .notFound
    usersByID := fun i => if i = 7 then .found userAlice else .notFound
    apps := fun i => if i = 1 then .ok appSso else .error "app not found"
    permsOf := fun _ => .ok []
    saveRefreshFails := false
    deleteRefreshFails := false
    existsRefreshFails := false
    saveResetFails := false
    sendResetEmailFails := false }

/-- Environment where the user lookup by email fails with a plain
database error instead of the not-found sentinel. -/
def envDbDown : AuthEnv :=
  { envHealthy with usersByEmail := fun _ => .dbError "connection refused" }

/-- C1: evaluating `Auth.RefreshToken` at a decodable, correctly signed
but access-typed token (so `ValidateRefreshToken` fails with
`ErrNotRefreshToken`): instead of returning an error, the code reaches
the nil dereference of `validClaims.UserID` because the
verification-failure branch only logs and does not return.  No token is
minted and nothing is persisted, but the call panics rather than
failing cleanly. -/
theorem refresh_verify_failure_hits_nil_deref :
    RefreshToken envHealthy []
      (.signed (NewToken userAlice appSso [] 900 1000)) 900 86400 1000
      = (.nilPanic, []) ∧
    ValidateRefreshToken (.signed (NewToken userAlice appSso [] 900 1000))
      appSso.Secret 1000 = .error .ErrNotRefreshToken := by
  decide

/-- C2 counterexample: with a registered and an unregistered email, the
two ForgotPassword responses differ in their message and in their
expiry field, so they are not "the same success response". -/
theorem forgot_password_responses_differ :
    (ForgotPassword envHealthy "alice@example.com" 1 1000).2.1
      ≠ (ForgotPassword envHealthy "bob@example.com" 1 1000).2.1 ∧
    (ForgotPassword envHealthy "alice@example.com" 1 1000).2.2.1
      ≠ (ForgotPassword envHealthy "bob@example.com" 1 1000).2.2.1 := by
  decide

/-- C2 amended: for a registered email (with storage and mailer healthy)
and for an unregistered email, both ForgotPassword calls return success
flag `true` and no error — identically shaped success responses — though
the message and expiry fields differ between the two cases. -/
theorem forgot_password_enumeration_shape (env : AuthEnv)
    (e1 e2 : String) (appID now : Int) (u : User)
    (h1 : env.usersByEmail e1 = .found u)
    (h2 : env.usersByEmail e2 = .notFound)
    (hsave : env.saveResetFails = false)
    (hmail : env.sendResetEmailFails = false) :
    (ForgotPassword env e1 appID now).1 = true ∧
    (ForgotPassword env e1 appID now).2.2.2 = none ∧
    (ForgotPassword env e2 appID now).1 = true ∧
    (ForgotPassword env e2 appID now).2.2.2 = none := by
  refine ⟨?_, ?_, ?_, ?_⟩ <;>
    simp [ForgotPassword, h1, h2, hsave, hmail]

/-- Closed witness for `forgot_password_enumeration_shape`. -/
theorem forgot_password_enumeration_shape_witness :
    (ForgotPassword envHealthy "alice@example.com" 1 1000).1 = true ∧
    (ForgotPassword envHealthy "alice@example.com" 1 1000).2.2.2 = none ∧
    (ForgotPassword envHealthy "bob@example.com" 1 1000).1 = true ∧
    (ForgotPassword envHealthy "bob@example.com" 1 1000).2.2.2 = none :=
  forgot_password_enumeration_shape envHealthy "alice@example.com"
    "bob@example.com" 1 1000 userAlice (by decide) (by decide) rfl rfl

/-- C7 counterexample: a database failure of the email lookup is
propagated as a storage error, not collapsed to the opaque
`invalidCredentials` — so not every lookup failure collapses. -/
theorem login_lookup_dberror_not_collapsed :
    (Login envDbDown [] "alice@example.com" "hunter2xx" 1 900 86400 1000).1
      = .error (.storageErr "connection refused") ∧
    (Login envDbDown [] "alice@example.com" "hunter2xx" 1 900 86400 1000).1
      ≠ .error .invalidCredentials := by
  decide

/-- C7 amended: the not-found lookup failure collapses to the opaque
`invalidCredentials`, which is the same error returned for a wrong
password; other lookup failures propagate as storage errors. -/
theorem login_invalid_credentials_collapse (env : AuthEnv)
    (store : List TokenString) (email password : String)
    (appID tokenTTL refreshTTL now : Int) :
    (env.usersByEmail email = .notFound →
      (Login env store email password appID tokenTTL refreshTTL now).1
        = .error .invalidCredentials) ∧
    (∀ u, env.usersByEmail email = .found u →
      bcryptCompare u.PasswordHash password = false →
      (Login env store email password appID tokenTTL refreshTTL now).1
        = .error .invalidCredentials) := by
  constructor
  · intro h
    simp [Login, h]
  · intro u hu hpw
    simp [Login, hu, hpw]

/-- Closed witness for `login_invalid_credentials_collapse`: unknown
email and wrong password produce the same opaque error. -/
theorem login_invalid_credentials_collapse_witness :
    (Login envHealthy [] "bob@example.com" "hunter2xx" 1 900 86400 1000).1
      = .error .invalidCredentials ∧
    (Login envHealthy [] "alice@example.com" "wrongpass" 1 900 86400 1000).1
      = .error .invalidCredentials :=
  ⟨(login_invalid_credentials_collapse envHealthy [] "bob@example.com"
      "hunter2xx" 1 900 86400 1000).1 (by decide),
   (login_invalid_credentials_collapse envHealthy [] "alice@example.com"
      "wrongpass" 1 900 86400 1000).2 userAlice (by decide) (by decide)⟩

/-! ## Permission service (`internal/services/user/user.go`) -/

/-- Collaborators of the `Permission` service: the user repository and
the permission repository's code-list query. -/
structure PermEnv where
  usersByID : Int → Lookup User
  getUserPermissions : Int → Except String (List String)

/-- `Permission.validateUserExists`: the not-found sentinel becomes
`invalidCredentials`, any other failure propagates. -/
def validateUserExists (env : PermEnv) (userID : Int) : Except SvcError Unit :=
  match env.usersByID userID with
  | .notFound => .error .invalidCredentials
  | .dbError m => .error (.storageErr m)
  | .found _ => .ok ()

/-- `Permission.GetUserPermissions`: user-existence check, then the
repository query for the granted code list. -/
def GetUserPermissions (env : PermEnv) (userID : Int) :
    Except SvcError (List String) :=
  match validateUserExists env userID with
  | .error e => .error e
  | .ok _ =>
    match env.getUserPermissions userID with
    | .error m => .error (.storageErr m)
    | .ok perms => .ok perms

/-- `Permission.ValidateUserAccess`: an empty required list passes
immediately, before the user-existence check and before any permission
lookup; otherwise the granted codes are fetched and the missing required
codes (in order) are reported. -/
def ValidateUserAccess (env : PermEnv) (userID : Int)
    (requiredPermissions : List String) : Except SvcError Unit :=
  if requiredPermissions = [] then .ok ()
  else
    match GetUserPermissions env userID with
    | .error e => .error e
    | .ok userPerms =>
      let missingPermissions := requiredPermissions.filter
        (fun required => ! userPerms.contains required)
      if missingPermissions ≠ [] then
        .error (.opErr ("missing permissions: " ++ goFormatList missingPermissions))
      else .ok ()

/-- C9: with an empty required-permissions list, `ValidateUserAccess`
succeeds for every environment — in particular for one whose user
repository knows no user at all, so neither the existence check nor any
permission lookup can have run; with a non-empty list the existence
check does run, and a nonexistent user fails with
`invalidCredentials`. -/
theorem validate_user_access_empty_skips (env envNF : PermEnv) (userID : Int)
    (req : List String) (hreq : req ≠ [])
    (hnf : envNF.usersByID userID = .notFound) :
    ValidateUserAccess env userID [] = .ok () ∧
    ValidateUserAccess envNF userID req = .error .invalidCredentials := by
  constructor
  · rfl
  · simp only [ValidateUserAccess, GetUserPermissions, validateUserExists, hnf]
    rw [if_neg hreq]

/-- Closed witness for `validate_user_access_empty_skips` on an
environment with no users at all. -/
theorem validate_user_access_empty_skips_witness :
    ValidateUserAccess
      { usersByID := fun _ => .notFound, getUserPermissions := fun _ => .error "down" }
      99 [] = .ok () ∧
    ValidateUserAccess
      { usersByID := fun _ => .notFound, getUserPermissions := fun _ => .error "down" }
      99 ["admin"] = .error .invalidCredentials :=
  validate_user_access_empty_skips
    { usersByID := fun _ => .notFound, getUserPermissions := fun _ => .error "down" }
    { usersByID := fun _ => .notFound, getUserPermissions := fun _ => .error "down" }
    99 ["admin"] (by decide) rfl

/-- Modelled from the spec: the `users_permissions` table schema is not
under `src/` (only the `INSERT ... ON CONFLICT DO NOTHING` in
`storage.AddUserPermission` is); the spec's data model declares the
association row (user id, permission id) as the many-to-many key, so the
conflict target is that pair and the insert adds a row exactly when the
pair is absent. -/
structure PermStore where
  rows : List (Int × Int)
  deriving DecidableEq, Repr

/-- `storage.AddUserPermission`: `INSERT ... ON CONFLICT DO NOTHING`
over the association pair. -/
def AddUserPermission (s : PermStore) (userID permissionID : Int) : PermStore :=
  if s.rows.contains (userID, permissionID) then s
  else { rows := s.rows ++ [(userID, permissionID)] }

/-- `Permission.GrantPermission`: user-existence check, then the
idempotent insert. -/
def GrantPermission (users : Int → Lookup User) (s : PermStore)
    (userID permissionID : Int) : Except SvcError Unit × PermStore :=
  match users userID with
  | .notFound => (.error .invalidCredentials, s)
  | .dbError m => (.error (.storageErr m), s)
  | .found _ => (.ok (), AddUserPermission s userID permissionID)

/-- C8: granting the same (user, permission) pair twice is not an
error — both grants succeed, the second is a no-op leaving the state of
the first, and the state after the first grant holds exactly one such
association row. -/
theorem grant_permission_idempotent (users : Int → Lookup User)
    (s : PermStore) (u : User) (userID permissionID : Int)
    (hu : users userID = .found u)
    (hfresh : s.rows.contains (userID, permissionID) = false) :
    (GrantPermission users s userID permissionID).1 = .ok () ∧
    (GrantPermission users
        (GrantPermission users s userID permissionID).2 userID permissionID).1
      = .ok () ∧
    (GrantPermission users
        (GrantPermission users s userID permissionID).2 userID permissionID).2
      = (GrantPermission users s userID permissionID).2 ∧
    ((GrantPermission users s userID permissionID).2).rows.count
        (userID, permissionID) = 1 := by
  have hmem : (userID, permissionID) ∉ s.rows := by simpa using hfresh
  have hadd : AddUserPermission s userID permissionID
      = { rows := s.rows ++ [(userID, permissionID)] } := by
    simp only [AddUserPermission, hfresh]
    simp
  have hcont1 : ({ rows := s.rows ++ [(userID, permissionID)] } : PermStore).rows.contains
      (userID, permissionID) = true := by simp
  refine ⟨by simp [GrantPermission, hu], by simp [GrantPermission, hu], ?_, ?_⟩
  · simp only [GrantPermission, hu, hadd]
    simp only [AddUserPermission, hcont1]
    simp
  · simp only [GrantPermission, hu, hadd]
    rw [List.count_append, List.count_eq_zero.mpr hmem]
    simp

/-- Closed witness for `grant_permission_idempotent` on an empty
association table. -/
theorem grant_permission_idempotent_witness :
    ((GrantPermission (fun i => if i = 7 then .found userAlice else .notFound)
        { rows := [] } 7 1).2).rows.count (7, 1) = 1 :=
  (grant_permission_idempotent
    (fun i => if i = 7 then .found userAlice else .notFound)
    { rows := [] } userAlice 7 1 (by decide) (by decide)).2.2.2
